import Mathlib

/-!
Verification of the coverage-report core of `gocover-html` (`html.go`).

The Go code is shallowly embedded: Go `int` fields become `Int`, Go
`float64` arithmetic is idealised as exact rational (`ℚ`) arithmetic,
except that a `float64` division is modelled by `goDiv`, which returns
`none` exactly when the divisor is zero (in Go such a division yields the
non-finite values `NaN` or `±Inf`, which are not numbers in our model).
Loops over slices become folds over lists, in the order of the Go loop.
-/

/-- Embedding of `golang.org/x/tools/cover.ProfileBlock`:
start/end positions, number of statements and hit count of one block. -/
structure ProfileBlock where
  StartLine : Int
  StartCol : Int
  EndLine : Int
  EndCol : Int
  NumStmt : Int
  Count : Int
deriving DecidableEq, Repr

/-- Embedding of `golang.org/x/tools/cover.Profile`: one file of the
parsed coverage profile. -/
structure Profile where
  FileName : String
  Mode : String
  Blocks : List ProfileBlock
deriving DecidableEq, Repr

/-- Embedding of `templateFile` (html.go): one entry of the report. -/
structure TemplateFile where
  Name : String
  Body : String
  Coverage : ℚ
  ID : Nat
deriving DecidableEq, Repr

/-- Embedding of `templateData` (html.go): the whole report handed to the
template. -/
structure TemplateData where
  Files : List TemplateFile
  Set : Bool
deriving DecidableEq, Repr

/-- Go `float64` division `x / y`: for `y = 0` the result is `NaN` or
`±Inf`, which we model as `none`; otherwise the exact quotient. -/
def goDiv (x y : ℚ) : Option ℚ :=
  if y = 0 then none else some (x / y)

/-- Embedding of `removeArrayDuplicates` (html.go:49-62): the Go code
collects the strings as keys of a `map[string]bool` and returns the key
set. Go map iteration order is unspecified; we fix the insertion order
of the first occurrences, which realises one admissible order of the
same key set. -/
def removeArrayDuplicates (e : List String) : List String :=
  e.foldl (fun res v => if v ∈ res then res else res ++ [v]) []

/-- The `fmt.Sprintf("%d-%d", block.StartLine, block.EndLine)` string of
html.go:135. -/
def rangeString (b : ProfileBlock) : String :=
  toString b.StartLine ++ "-" ++ toString b.EndLine

/-- The `uncoverdLines` slice built by the loop of html.go:130-137:
every block whose `Count` is exactly `0` contributes its range string,
in block order, before deduplication. -/
def uncoverdLines (p : Profile) : List String :=
  (p.Blocks.filter (fun b => b.Count == 0)).map rangeString

/-- The deduplicated `uncoverdLines` of html.go:140: the set of uncovered
ranges that is joined into the `data-line` attribute. -/
def uncoverdLinesDedup (p : Profile) : List String :=
  removeArrayDuplicates (uncoverdLines p)

/-- Embedding of `htmlGen` (html.go:126-144): the `<pre>` fragment written
for one file. Writing to the buffered writer cannot fail in the model, so
the result is the produced string. -/
def htmlGen (src : String) (p : Profile) : String :=
  "<pre class=\" line-numbers\" data-line=\"" ++
    String.intercalate "," (uncoverdLinesDedup p) ++
    "\"><code class=\"language-go\">" ++ src ++ "</code></pre>"

/-- The loop body of `percentCovered` (html.go:152-157) as one fold step:
`acc.1` is `total`, `acc.2` is `covered`. -/
def pcStep (acc : Int × Int) (b : ProfileBlock) : Int × Int :=
  (acc.1 + b.NumStmt, if 0 < b.Count then acc.2 + b.NumStmt else acc.2)

/-- Embedding of `percentCovered` (html.go:149-164): accumulate `total`
and `covered` over the blocks, return `0` when `total == 0`, otherwise
`covered / total * 100`. The division is guarded, hence always finite. -/
def percentCovered (p : Profile) : ℚ :=
  let tc := p.Blocks.foldl pcStep ((0 : Int), (0 : Int))
  if tc.1 = 0 then 0 else ((tc.2 : ℚ) / (tc.1 : ℚ)) * 100

/-- Embedding of `totalCoverage` (html.go:166-174): sum the per-file
coverages and divide by the number of files. The Go code divides
unconditionally, so the zero-files case is a `0/0` float division. -/
def totalCoverage (p : TemplateData) : Option ℚ :=
  goDiv (p.Files.foldl (fun x v => x + v.Coverage) 0) ((p.Files.length : ℚ))

/-- The per-profile body of the loop of `getTemplateData` (html.go:184-213),
threading the loop index `k` and the accumulated `Set` flag. `resolve`
stands for the external `findFile` + `ioutil.ReadFile` collaborators;
`none` is their error case, which aborts the whole run. -/
def processProfiles (resolve : String → Option String) :
    List Profile → Nat → Bool → Option (Bool × List TemplateFile)
  | [], _, s => some (s, [])
  | p :: ps, k, s =>
    (resolve p.FileName).bind (fun src =>
      (processProfiles resolve ps (k + 1) (if p.Mode == "set" then true else s)).map
        (fun r => (r.1, { Name := p.FileName, Body := htmlGen src p,
                          Coverage := percentCovered p, ID := k } :: r.2)))

/-- Embedding of `getTemplateData` (html.go:176-216) after parsing:
given the resolved source texts and the parsed profiles, assemble the
`templateData`, or fail when some source cannot be resolved. -/
def getTemplateData (resolve : String → Option String) (profiles : List Profile) :
    Option TemplateData :=
  (processProfiles resolve profiles 0 false).map (fun r => ⟨r.2, r.1⟩)

/-- Spec-side total: sum of `statementCount` over all blocks. -/
def totalStmts (p : Profile) : Int :=
  (p.Blocks.map (fun b => b.NumStmt)).sum

/-- Spec-side covered: sum of `statementCount` over the blocks with
`hitCount > 0`. -/
def coveredStmts (p : Profile) : Int :=
  ((p.Blocks.filter (fun b => decide (0 < b.Count))).map (fun b => b.NumStmt)).sum

/-! ### Helper lemmas -/

/-- The two accumulators of the `percentCovered` loop are the sums of
`NumStmt` over all blocks and over the blocks with positive `Count`. -/
lemma foldl_pcStep (l : List ProfileBlock) (a c : Int) :
    l.foldl pcStep (a, c) =
      (a + (l.map (fun b => b.NumStmt)).sum,
       c + ((l.filter (fun b => decide (0 < b.Count))).map (fun b => b.NumStmt)).sum) := by
  induction l generalizing a c with
  | nil => simp
  | cons b t ih =>
    simp only [List.foldl_cons, List.map_cons, List.sum_cons, List.filter_cons, pcStep]
    by_cases h : 0 < b.Count
    · rw [if_pos h, ih]
      simp only [decide_eq_true_eq, if_pos h, List.map_cons, List.sum_cons, Prod.mk.injEq]
      exact ⟨by ring, by ring⟩
    · rw [if_neg h, ih]
      simp only [decide_eq_true_eq, if_neg h, Prod.mk.injEq]
      exact ⟨by ring, trivial⟩

/-- `percentCovered` computes the guarded quotient of the spec-side sums. -/
lemma percentCovered_eq (p : Profile) :
    percentCovered p =
      if totalStmts p = 0 then 0
      else ((coveredStmts p : ℚ) / (totalStmts p : ℚ)) * 100 := by
  unfold percentCovered totalStmts coveredStmts
  rw [foldl_pcStep]
  simp

/-- Membership in the dedup fold: an element is in the result iff it is in
the accumulator or in the remaining input. -/
lemma mem_dedup_foldl (l : List String) (acc : List String) (x : String) :
    (x ∈ l.foldl (fun res v => if v ∈ res then res else res ++ [v]) acc) ↔
      x ∈ acc ∨ x ∈ l := by
  induction l generalizing acc with
  | nil => simp
  | cons v t ih =>
    simp only [List.foldl_cons]
    by_cases h : v ∈ acc
    · rw [if_pos h, ih]
      simp only [List.mem_cons]
      constructor
      · rintro (hx | hx)
        · exact Or.inl hx
        · exact Or.inr (Or.inr hx)
      · rintro (hx | hx | hx)
        · exact Or.inl hx
        · exact Or.inl (hx ▸ h)
        · exact Or.inr hx
    · rw [if_neg h, ih]
      simp only [List.mem_append, List.mem_cons, List.mem_singleton]
      tauto

/-- The dedup fold keeps the accumulator duplicate-free. -/
lemma nodup_dedup_foldl (l : List String) (acc : List String) (hacc : acc.Nodup) :
    (l.foldl (fun res v => if v ∈ res then res else res ++ [v]) acc).Nodup := by
  induction l generalizing acc with
  | nil => simpa
  | cons v t ih =>
    simp only [List.foldl_cons]
    by_cases h : v ∈ acc
    · rw [if_pos h]; exact ih _ hacc
    · rw [if_neg h]
      refine ih _ ?_
      simp [List.nodup_append, hacc, h]

/-- `removeArrayDuplicates` preserves membership. -/
lemma mem_removeArrayDuplicates (e : List String) (x : String) :
    x ∈ removeArrayDuplicates e ↔ x ∈ e := by
  unfold removeArrayDuplicates
  rw [mem_dedup_foldl]
  simp

/-- `removeArrayDuplicates` returns a duplicate-free list. -/
lemma nodup_removeArrayDuplicates (e : List String) :
    (removeArrayDuplicates e).Nodup :=
  nodup_dedup_foldl e [] List.nodup_nil

/-- The `totalCoverage` loop sums the coverages. -/
lemma foldl_add_coverage (l : List TemplateFile) (a : ℚ) :
    l.foldl (fun x v => x + v.Coverage) a = a + (l.map (fun v => v.Coverage)).sum := by
  induction l generalizing a with
  | nil => simp
  | cons v t ih => simp [ih, add_assoc]

/-- Full characterisation of a successful `processProfiles` run: the final
`Set` flag, the length of the produced list, and name and ID of every entry. -/
lemma processProfiles_eq_some (resolve : String → Option String) (ps : List Profile)
    (k : Nat) (s : Bool) (r : Bool × List TemplateFile)
    (h : processProfiles resolve ps k s = some r) :
    r.1 = (s || ps.any (fun p => p.Mode == "set")) ∧
    r.2.length = ps.length ∧
    ∀ i : Nat, (r.2[i]?).map (fun f => (f.Name, f.ID)) =
      (ps[i]?).map (fun p => (p.FileName, k + i)) := by
  induction ps generalizing k s r with
  | nil =>
    have hr : (s, ([] : List TemplateFile)) = r := by
      simpa [processProfiles] using h
    subst hr
    simp
  | cons p t ih =>
    simp only [processProfiles, Option.bind_eq_some, Option.map_eq_some'] at h
    obtain ⟨src, hres, r2, hrec, rfl⟩ := h
    obtain ⟨h1, h2, h3⟩ := ih _ _ _ hrec
    refine ⟨?_, ?_, ?_⟩
    · simp only [List.any_cons]
      rw [h1]
      cases hps : (p.Mode == "set") <;> cases s <;> simp [hps]
    · simpa using h2
    · intro i
      cases i with
      | zero => simp
      | succ n =>
        simp only [List.getElem?_cons_succ]
        rw [h3 n]
        have hkn : k + 1 + n = k + (n + 1) := by omega
        rw [hkn]

/-! ### Claims -/

/-- C1 counterexample: on the empty report the Go code computes
`0 / float64(0)`, a `0/0` float division, so the result is NaN and in
particular not `0`. -/
theorem totalCoverage_empty_claim_false :
    totalCoverage ⟨[], false⟩ ≠ some 0 := by
  simp [totalCoverage, goDiv]

/-- C1 (amended): `totalCoverage` of a report with zero files has no
finite value (the unguarded division by the file count is `0/0`, NaN). -/
theorem totalCoverage_empty_none (d : TemplateData) (h : d.Files = []) :
    totalCoverage d = none := by
  simp [totalCoverage, goDiv, h]

/-- Witness for `totalCoverage_empty_none` at the empty report. -/
theorem totalCoverage_empty_none_witness :
    (⟨[], false⟩ : TemplateData).Files = [] ∧
    totalCoverage ⟨[], false⟩ = none :=
  ⟨rfl, totalCoverage_empty_none ⟨[], false⟩ rfl⟩

/-- C2: for a file with at least one statement, `percentCovered` is the
sum of `NumStmt` over the blocks with `Count > 0`, divided by the sum of
`NumStmt` over all blocks, times 100; blocks with `Count = 0` are exactly
the ones the filter in `coveredStmts` drops, whatever their `NumStmt`. -/
theorem percentCovered_formula (p : Profile) (h : totalStmts p ≠ 0) :
    percentCovered p = ((coveredStmts p : ℚ) / (totalStmts p : ℚ)) * 100 := by
  rw [percentCovered_eq, if_neg h]

/-- Witness for `percentCovered_formula`: the spec's example file
`[(1,5,3,0),(6,10,2,2)]` has 5 statements, 2 covered. -/
theorem percentCovered_formula_witness :
    totalStmts ⟨"f", "set", [⟨1, 0, 5, 0, 3, 0⟩, ⟨6, 0, 10, 0, 2, 2⟩]⟩ ≠ 0 ∧
    percentCovered ⟨"f", "set", [⟨1, 0, 5, 0, 3, 0⟩, ⟨6, 0, 10, 0, 2, 2⟩]⟩ =
      ((coveredStmts ⟨"f", "set", [⟨1, 0, 5, 0, 3, 0⟩, ⟨6, 0, 10, 0, 2, 2⟩]⟩ : ℚ) /
        (totalStmts ⟨"f", "set", [⟨1, 0, 5, 0, 3, 0⟩, ⟨6, 0, 10, 0, 2, 2⟩]⟩ : ℚ)) * 100 :=
  ⟨by decide, percentCovered_formula _ (by decide)⟩

/-- C3: a file whose blocks have no statements at all is reported as 0%,
with no division performed. -/
theorem percentCovered_zero_total (p : Profile) (h : totalStmts p = 0) :
    percentCovered p = 0 := by
  rw [percentCovered_eq, if_pos h]

/-- Witness for `percentCovered_zero_total`: a single zero-statement block,
even a covered one, yields 0%. -/
theorem percentCovered_zero_total_witness :
    totalStmts ⟨"f", "set", [⟨1, 0, 2, 0, 0, 5⟩]⟩ = 0 ∧
    percentCovered ⟨"f", "set", [⟨1, 0, 2, 0, 0, 5⟩]⟩ = 0 :=
  ⟨by decide, percentCovered_zero_total _ (by decide)⟩

/-- C4: on a report with at least one file, `totalCoverage` is the
arithmetic mean of the per-file coverages: their sum divided by the number
of files, each file weighted equally. -/
theorem totalCoverage_mean (d : TemplateData) (h : d.Files ≠ []) :
    totalCoverage d =
      some (((d.Files.map (fun v => v.Coverage)).sum) / (d.Files.length : ℚ)) := by
  unfold totalCoverage
  rw [foldl_add_coverage]
  have h0 : d.Files.length ≠ 0 := by
    simpa [List.length_eq_zero] using h
  have h1 : (d.Files.length : ℚ) ≠ 0 := Nat.cast_ne_zero.mpr h0
  simp [goDiv, h1]

/-- Witness for `totalCoverage_mean`: files at 40% and 100% average to
(40+100)/2. -/
theorem totalCoverage_mean_witness :
    (⟨[⟨"a.go", "", 40, 0⟩, ⟨"b.go", "", 100, 1⟩], false⟩ : TemplateData).Files ≠ [] ∧
    totalCoverage ⟨[⟨"a.go", "", 40, 0⟩, ⟨"b.go", "", 100, 1⟩], false⟩ =
      some ((((⟨[⟨"a.go", "", 40, 0⟩, ⟨"b.go", "", 100, 1⟩], false⟩ : TemplateData).Files.map
          (fun v => v.Coverage)).sum) /
        (((⟨[⟨"a.go", "", 40, 0⟩, ⟨"b.go", "", 100, 1⟩], false⟩ : TemplateData).Files.length : ℚ))) :=
  ⟨by simp, totalCoverage_mean _ (by simp)⟩

/-- C5: every range string produced by some zero-hit block appears exactly
once in the deduplicated uncovered-range list, duplicates included. -/
theorem uncovered_range_once (p : Profile) (s : String) (h : s ∈ uncoverdLines p) :
    (uncoverdLinesDedup p).count s = 1 :=
  List.count_eq_one_of_mem (nodup_removeArrayDuplicates _)
    ((mem_removeArrayDuplicates _ _).mpr h)

/-- Witness for `uncovered_range_once`: two identical zero-hit blocks
`(10,20,5,0)` yield exactly one `"10-20"`. -/
theorem uncovered_range_once_witness :
    "10-20" ∈ uncoverdLines ⟨"f", "set", [⟨10, 0, 20, 0, 5, 0⟩, ⟨10, 0, 20, 0, 5, 0⟩]⟩ ∧
    (uncoverdLinesDedup ⟨"f", "set", [⟨10, 0, 20, 0, 5, 0⟩, ⟨10, 0, 20, 0, 5, 0⟩]⟩).count "10-20" = 1 :=
  ⟨by decide, uncovered_range_once _ _ (by decide)⟩

/-- C6: a block with `Count = 0` and `NumStmt = 0` is still emitted: its
range string is in the deduplicated uncovered-range list. Emission only
tests the hit count. -/
theorem zero_stmt_block_emitted (p : Profile) (b : ProfileBlock) (hb : b ∈ p.Blocks)
    (hc : b.Count = 0) (_hs : b.NumStmt = 0) :
    rangeString b ∈ uncoverdLinesDedup p := by
  unfold uncoverdLinesDedup
  rw [mem_removeArrayDuplicates]
  exact List.mem_map_of_mem _ (List.mem_filter.mpr ⟨hb, by simp [hc]⟩)

/-- Witness for `zero_stmt_block_emitted`: the zero-statement zero-hit
block `(3,7,0,0)` produces the range `"3-7"`. -/
theorem zero_stmt_block_emitted_witness :
    (⟨3, 0, 7, 0, 0, 0⟩ : ProfileBlock) ∈
      (⟨"g", "count", [⟨3, 0, 7, 0, 0, 0⟩]⟩ : Profile).Blocks ∧
    (⟨3, 0, 7, 0, 0, 0⟩ : ProfileBlock).Count = 0 ∧
    (⟨3, 0, 7, 0, 0, 0⟩ : ProfileBlock).NumStmt = 0 ∧
    rangeString ⟨3, 0, 7, 0, 0, 0⟩ ∈
      uncoverdLinesDedup ⟨"g", "count", [⟨3, 0, 7, 0, 0, 0⟩]⟩ :=
  ⟨by decide, rfl, rfl, zero_stmt_block_emitted _ _ (by decide) rfl rfl⟩

/-- C7: when every block has a non-negative statement count, the computed
coverage is between 0 and 100, also for duplicated or overlapping blocks. -/
theorem percentCovered_bounds (p : Profile) (hnn : ∀ b ∈ p.Blocks, 0 ≤ b.NumStmt) :
    0 ≤ percentCovered p ∧ percentCovered p ≤ 100 := by
  rw [percentCovered_eq]
  by_cases h : totalStmts p = 0
  · rw [if_pos h]
    norm_num
  · rw [if_neg h]
    have hmem : ∀ x ∈ p.Blocks.map (fun b => b.NumStmt), (0 : Int) ≤ x := by
      intro x hx
      obtain ⟨b, hb, rfl⟩ := List.mem_map.mp hx
      exact hnn b hb
    have hc0 : 0 ≤ coveredStmts p := by
      refine List.sum_nonneg ?_
      intro x hx
      obtain ⟨b, hb, rfl⟩ := List.mem_map.mp hx
      exact hnn b (List.mem_filter.mp hb).1
    have hct : coveredStmts p ≤ totalStmts p :=
      List.Sublist.sum_le_sum
        (List.Sublist.map _ (List.filter_sublist _)) hmem
    have ht0 : (0 : Int) < totalStmts p := lt_of_le_of_ne (le_trans hc0 hct) (Ne.symm h)
    have htq : (0 : ℚ) < (totalStmts p : ℚ) := by exact_mod_cast ht0
    have hcq : (0 : ℚ) ≤ (coveredStmts p : ℚ) := by exact_mod_cast hc0
    have hdiv1 : (coveredStmts p : ℚ) / (totalStmts p : ℚ) ≤ 1 :=
      (div_le_one htq).mpr (by exact_mod_cast hct)
    constructor
    · exact mul_nonneg (div_nonneg hcq htq.le) (by norm_num)
    · calc ((coveredStmts p : ℚ) / (totalStmts p : ℚ)) * 100
          ≤ 1 * 100 := by
            exact mul_le_mul_of_nonneg_right hdiv1 (by norm_num)
        _ = 100 := one_mul 100

/-- Witness for `percentCovered_bounds`: duplicated and overlapping blocks
`[(1,10,5,1),(1,10,5,1),(5,8,3,0)]` still give a coverage in [0,100]. -/
theorem percentCovered_bounds_witness :
    (∀ b ∈ (⟨"f", "set", [⟨1, 0, 10, 0, 5, 1⟩, ⟨1, 0, 10, 0, 5, 1⟩, ⟨5, 0, 8, 0, 3, 0⟩]⟩ :
        Profile).Blocks, 0 ≤ b.NumStmt) ∧
    (0 ≤ percentCovered ⟨"f", "set", [⟨1, 0, 10, 0, 5, 1⟩, ⟨1, 0, 10, 0, 5, 1⟩, ⟨5, 0, 8, 0, 3, 0⟩]⟩ ∧
     percentCovered ⟨"f", "set", [⟨1, 0, 10, 0, 5, 1⟩, ⟨1, 0, 10, 0, 5, 1⟩, ⟨5, 0, 8, 0, 3, 0⟩]⟩ ≤ 100) :=
  ⟨by decide, percentCovered_bounds _ (by decide)⟩

/-- C8: on a successfully assembled report, the `Set` flag is true iff
some input profile's mode line is exactly `"set"`; `"count"` or
`"atomic"` modes never set it. -/
theorem getTemplateData_set_iff (resolve : String → Option String) (ps : List Profile)
    (d : TemplateData) (h : getTemplateData resolve ps = some d) :
    (d.Set = true ↔ ∃ p ∈ ps, p.Mode = "set") := by
  unfold getTemplateData at h
  rw [Option.map_eq_some'] at h
  obtain ⟨r, hr, rfl⟩ := h
  obtain ⟨h1, -, -⟩ := processProfiles_eq_some _ _ _ _ _ hr
  show r.1 = true ↔ _
  rw [h1]
  simp [List.any_eq_true]

/-- Witness for `getTemplateData_set_iff`: a `"count"` profile and a
`"set"` profile yield a report with the flag set. -/
theorem getTemplateData_set_iff_witness :
    getTemplateData (fun _ => some "x") [⟨"a.go", "count", []⟩, ⟨"b.go", "set", []⟩] =
      some ⟨[⟨"a.go",
              "<pre class=\" line-numbers\" data-line=\"\"><code class=\"language-go\">x</code></pre>",
              0, 0⟩,
            ⟨"b.go",
              "<pre class=\" line-numbers\" data-line=\"\"><code class=\"language-go\">x</code></pre>",
              0, 1⟩], true⟩ ∧
    ((⟨[⟨"a.go",
         "<pre class=\" line-numbers\" data-line=\"\"><code class=\"language-go\">x</code></pre>",
         0, 0⟩,
       ⟨"b.go",
         "<pre class=\" line-numbers\" data-line=\"\"><code class=\"language-go\">x</code></pre>",
         0, 1⟩], true⟩ : TemplateData).Set = true ↔
      ∃ p ∈ [(⟨"a.go", "count", []⟩ : Profile), ⟨"b.go", "set", []⟩], p.Mode = "set") :=
  ⟨by rfl, getTemplateData_set_iff (fun _ => some "x")
    [⟨"a.go", "count", []⟩, ⟨"b.go", "set", []⟩] _ (by rfl)⟩

/-- C9: on a successfully assembled report the files keep the input order
and the `k`-th file (0-based) carries ID `k` and the `k`-th profile's
name. -/
theorem getTemplateData_order (resolve : String → Option String) (ps : List Profile)
    (d : TemplateData) (h : getTemplateData resolve ps = some d) :
    d.Files.length = ps.length ∧
    ∀ i : Nat, (d.Files[i]?).map (fun f => (f.Name, f.ID)) =
      (ps[i]?).map (fun p => (p.FileName, i)) := by
  unfold getTemplateData at h
  rw [Option.map_eq_some'] at h
  obtain ⟨r, hr, rfl⟩ := h
  obtain ⟨-, h2, h3⟩ := processProfiles_eq_some _ _ _ _ _ hr
  exact ⟨h2, fun i => by simpa using h3 i⟩

/-- Witness for `getTemplateData_order` on a two-file profile list. -/
theorem getTemplateData_order_witness :
    getTemplateData (fun _ => some "y") [⟨"m.go", "count", []⟩, ⟨"n.go", "count", []⟩] =
      some ⟨[⟨"m.go",
              "<pre class=\" line-numbers\" data-line=\"\"><code class=\"language-go\">y</code></pre>",
              0, 0⟩,
            ⟨"n.go",
              "<pre class=\" line-numbers\" data-line=\"\"><code class=\"language-go\">y</code></pre>",
              0, 1⟩], false⟩ ∧
    ((⟨[⟨"m.go",
         "<pre class=\" line-numbers\" data-line=\"\"><code class=\"language-go\">y</code></pre>",
         0, 0⟩,
       ⟨"n.go",
         "<pre class=\" line-numbers\" data-line=\"\"><code class=\"language-go\">y</code></pre>",
         0, 1⟩], false⟩ : TemplateData).Files.length =
      [(⟨"m.go", "count", []⟩ : Profile), ⟨"n.go", "count", []⟩].length ∧
     ∀ i : Nat,
      ((⟨[⟨"m.go",
           "<pre class=\" line-numbers\" data-line=\"\"><code class=\"language-go\">y</code></pre>",
           0, 0⟩,
         ⟨"n.go",
           "<pre class=\" line-numbers\" data-line=\"\"><code class=\"language-go\">y</code></pre>",
           0, 1⟩], false⟩ : TemplateData).Files[i]?).map (fun f => (f.Name, f.ID)) =
        ([(⟨"m.go", "count", []⟩ : Profile), ⟨"n.go", "count", []⟩][i]?).map
          (fun p => (p.FileName, i))) :=
  ⟨by rfl, getTemplateData_order (fun _ => some "y")
    [⟨"m.go", "count", []⟩, ⟨"n.go", "count", []⟩] _ (by rfl)⟩

/-- C10: a block with a strictly negative hit count adds its `NumStmt` to
the total but nothing to the covered sum of `percentCovered`, and the
uncovered-range loop does not emit it (its test is `Count = 0` exactly). -/
theorem negative_count_excluded (fn md : String) (b : ProfileBlock)
    (bs : List ProfileBlock) (h : b.Count < 0) :
    percentCovered ⟨fn, md, b :: bs⟩ =
      (if b.NumStmt + totalStmts ⟨fn, md, bs⟩ = 0 then 0
       else ((coveredStmts ⟨fn, md, bs⟩ : ℚ) /
         ((b.NumStmt + totalStmts ⟨fn, md, bs⟩ : Int) : ℚ)) * 100) ∧
    uncoverdLines ⟨fn, md, b :: bs⟩ = uncoverdLines ⟨fn, md, bs⟩ := by
  have hne : ¬ 0 < b.Count := by omega
  have hz : ¬ b.Count = 0 := by omega
  constructor
  · have htot : totalStmts ⟨fn, md, b :: bs⟩ = b.NumStmt + totalStmts ⟨fn, md, bs⟩ := by
      simp [totalStmts]
    have hcov : coveredStmts ⟨fn, md, b :: bs⟩ = coveredStmts ⟨fn, md, bs⟩ := by
      simp [coveredStmts, List.filter_cons, hne]
    rw [percentCovered_eq, htot, hcov]
  · simp [uncoverdLines, List.filter_cons, hz]

/-- Witness for `negative_count_excluded`: the block `(1,5,3,-1)` before
`(6,10,2,2)` divides 2 covered by 5 total and emits no range. -/
theorem negative_count_excluded_witness :
    (⟨1, 0, 5, 0, 3, -1⟩ : ProfileBlock).Count < 0 ∧
    (percentCovered ⟨"f", "count", ⟨1, 0, 5, 0, 3, -1⟩ :: [⟨6, 0, 10, 0, 2, 2⟩]⟩ =
      (if (⟨1, 0, 5, 0, 3, -1⟩ : ProfileBlock).NumStmt +
            totalStmts ⟨"f", "count", [⟨6, 0, 10, 0, 2, 2⟩]⟩ = 0 then 0
       else ((coveredStmts ⟨"f", "count", [⟨6, 0, 10, 0, 2, 2⟩]⟩ : ℚ) /
         (((⟨1, 0, 5, 0, 3, -1⟩ : ProfileBlock).NumStmt +
            totalStmts ⟨"f", "count", [⟨6, 0, 10, 0, 2, 2⟩]⟩ : Int) : ℚ)) * 100) ∧
     uncoverdLines ⟨"f", "count", ⟨1, 0, 5, 0, 3, -1⟩ :: [⟨6, 0, 10, 0, 2, 2⟩]⟩ =
       uncoverdLines ⟨"f", "count", [⟨6, 0, 10, 0, 2, 2⟩]⟩) :=
  ⟨by decide, negative_count_excluded _ _ _ _ (by decide)⟩
